import Mathlib

/-!
Shallow embedding of `backend/app/services/downloader.py` of the
youtube-downloader repository, together with proofs settling the frozen
claims about its specification.

Conventions of the embedding:
* Python `None` for an optional dict entry is `Option.none`.
* A Python value that may be raised (an exception) is modelled with
  `Except PyErr`; `except Exception` clauses become `match` on that value.
* The pydantic `BaseModel` classes of the source validate their keyword
  arguments at construction time: a declared field without a default that
  is not among the supplied keyword arguments raises a `ValidationError`,
  and assignment to an attribute that is not a declared field raises a
  `ValueError`.  Where the source hits those two rules we model them by an
  explicit comparison of the (statically known) keyword/field name lists.
* yt-dlp marks a missing stream with the string `"none"` in
  `acodec`/`vcodec`; raw format records are modelled as carrying those
  fields, matching the spec's description of the Format Selector input.
-/

/-- Python exception values, as far as the downloader distinguishes them. -/
inductive PyErr where
  | exception (msg : String)
  | keyError (key : String)
  | valueError (msg : String)
  | validationError (msg : String)
  deriving Repr, DecidableEq

/-- Returns `true` exactly on `Except.ok`; the Boolean form of "did not raise". -/
def isOkE {ε α : Type} : Except ε α → Bool
  | .ok _ => true
  | .error _ => false

/-- Python `str.endswith`, via the character list of the string. -/
def strEndsWith (s suffixStr : String) : Bool :=
  suffixStr.data.isSuffixOf s.data

/-! ## Format Selector (downloader.py lines 72-107, inside `get_video_info`) -/

/-- One raw format record returned by the external tool.  Matching §4.1 of
the spec, each record carries `acodec`, `vcodec`, `ext`, `height`, `fps`,
`tbr`, `filesize`, `format_id`; `acodec`/`vcodec` use the string `"none"`
to mark an absent stream, numeric fields may be absent (`None`). -/
structure RawFormat where
  format_id : String
  ext : String
  acodec : String
  vcodec : String
  height : Option Nat
  fps : Option Nat
  tbr : Option ℚ
  filesize : Option Nat
  deriving Repr, DecidableEq

/-- The test `f.get('acodec') != 'none'` (lines 78/80/102). -/
def hasAudioCodec (f : RawFormat) : Bool := f.acodec != "none"

/-- The test `f.get('vcodec') != 'none'` (lines 78-80/103). -/
def hasVideoCodec (f : RawFormat) : Bool := f.vcodec != "none"

/-- The inclusion test of lines 78-80: combined, or mp4 video, or
audio-only. -/
def includeFormat (f : RawFormat) : Bool :=
  (hasAudioCodec f && hasVideoCodec f) ||
  (hasVideoCodec f && f.ext == "mp4") ||
  (hasAudioCodec f && !hasVideoCodec f)

/-- The `format_note` pieces built in lines 82-94.  Python truthiness:
`if f.get('height'):` is false both for a missing key and for `0`. -/
def formatNoteParts (f : RawFormat) : List String :=
  (match f.height with
   | some h => if h != 0 then [toString h ++ "p"] else []
   | none => []) ++
  (match f.fps with
   | some n => if n != 0 then [toString n ++ "fps"] else []
   | none => []) ++
  (if hasAudioCodec f && hasVideoCodec f then ["video+audio"]
   else if f.acodec == "none" then ["video-only"]
   else if f.vcodec == "none" then ["audio-only"]
   else [])

/-- One entry of the filtered `formats` list (dict built in lines 96-104). -/
structure FormatOption where
  format_id : String
  ext : String
  filesize : Option Nat
  format_note : String
  tbr : Option ℚ
  has_audio : Bool
  has_video : Bool
  deriving Repr, DecidableEq

/-- The dict appended in lines 96-104 for an included raw record. -/
def toFormatOption (f : RawFormat) : FormatOption :=
  { format_id := f.format_id
    ext := f.ext
    filesize := f.filesize
    format_note := String.intercalate " " (formatNoteParts f)
    tbr := f.tbr
    has_audio := hasAudioCodec f
    has_video := hasVideoCodec f }

/-- The accumulation loop of lines 73-104. -/
def selectFormats : List RawFormat → List FormatOption
  | [] => []
  | f :: fs =>
      if includeFormat f then toFormatOption f :: selectFormats fs
      else selectFormats fs

/-- The sort key of line 107: `float('-inf') if tbr is None else tbr`. -/
def tbrKey (x : FormatOption) : WithBot ℚ :=
  match x.tbr with
  | none => ⊥
  | some q => (q : WithBot ℚ)

/-- Comparison used by the descending stable sort of line 107
(`sort(key=..., reverse=True)` keeps ties in input order). -/
def tbrGE (a b : FormatOption) : Bool := decide (tbrKey b ≤ tbrKey a)

/-- The call `formats.sort(key=..., reverse=True)` (line 107): a stable sort by
non-increasing `tbr`. -/
def sortFormats (l : List FormatOption) : List FormatOption :=
  l.mergeSort tbrGE

/-- The whole Format Selector: the filtering loop followed by the sort. -/
def formatSelector (fs : List RawFormat) : List FormatOption :=
  sortFormats (selectFormats fs)

/-! Helper lemmas about the Format Selector. -/

theorem selectFormats_eq (fs : List RawFormat) :
    selectFormats fs = (fs.filter includeFormat).map toFormatOption := by
  induction fs with
  | nil => rfl
  | cons f fs ih =>
      by_cases h : includeFormat f <;>
        simp [selectFormats, List.filter_cons, h, ih]

theorem tbrGE_trans (a b c : FormatOption) :
    tbrGE a b → tbrGE b c → tbrGE a c := by
  simp only [tbrGE, decide_eq_true_eq]
  exact fun h1 h2 => le_trans h2 h1

theorem tbrGE_total (a b : FormatOption) : tbrGE a b || tbrGE b a := by
  simp only [tbrGE, Bool.or_eq_true, decide_eq_true_eq]
  exact (le_total (tbrKey b) (tbrKey a))

theorem formatSelector_perm (fs : List RawFormat) :
    List.Perm (formatSelector fs)
      ((fs.filter includeFormat).map toFormatOption) := by
  unfold formatSelector sortFormats
  rw [selectFormats_eq]
  exact List.mergeSort_perm _ _

theorem formatSelector_sorted (fs : List RawFormat) :
    (formatSelector fs).Pairwise (fun a b => tbrKey b ≤ tbrKey a) := by
  have h := List.sorted_mergeSort tbrGE_trans tbrGE_total (selectFormats fs)
  exact h.imp (by simp only [tbrGE, decide_eq_true_eq]; exact fun h => h)

theorem formatSelector_none_le (fs : List RawFormat) :
    (formatSelector fs).Pairwise (fun a b => a.tbr = none → b.tbr = none) := by
  refine (formatSelector_sorted fs).imp ?_
  intro a b h hnone
  cases hb : b.tbr with
  | none => rfl
  | some q =>
      exfalso
      simp only [tbrKey, hnone, hb] at h
      exact WithBot.not_coe_le_bot q h

theorem formatSelector_filter_stable (fs : List RawFormat) (q : Option ℚ) :
    (formatSelector fs).filter (fun o => o.tbr == q)
      = (selectFormats fs).filter (fun o => o.tbr == q) := by
  set p : FormatOption → Bool := fun o => o.tbr == q with hp
  have hpair : ((selectFormats fs).filter p).Pairwise
      (fun a b => tbrGE a b = true) := by
    apply List.pairwise_of_forall_mem_list
    intro a ha b hb
    have ha2 : a.tbr = q := by
      have := (List.mem_filter.mp ha).2
      simpa [hp] using this
    have hb2 : b.tbr = q := by
      have := (List.mem_filter.mp hb).2
      simpa [hp] using this
    have : tbrKey b = tbrKey a := by simp [tbrKey, ha2, hb2]
    simp [tbrGE, this]
  have hsub : List.Sublist ((selectFormats fs).filter p) (formatSelector fs) :=
    List.sublist_mergeSort tbrGE_trans tbrGE_total hpair (List.filter_sublist _)
  have hsub2 : List.Sublist ((selectFormats fs).filter p)
      ((formatSelector fs).filter p) := by
    have h1 : List.Sublist (((selectFormats fs).filter p).filter p)
        ((formatSelector fs).filter p) := hsub.filter p
    rwa [List.filter_filter, (by
      funext x
      cases hx : p x <;> simp [hx] : (fun x => p x && p x) = p)] at h1
  have hperm : ((formatSelector fs).filter p).Perm
      ((selectFormats fs).filter p) :=
    (List.mergeSort_perm (selectFormats fs) tbrGE).filter p
  exact (hsub2.eq_of_length hperm.length_eq.symm).symm

theorem mem_formatSelector (fs : List RawFormat) (o : FormatOption) :
    o ∈ formatSelector fs ↔
      ∃ f, f ∈ fs ∧ includeFormat f = true ∧ o = toFormatOption f := by
  rw [(formatSelector_perm fs).mem_iff]
  simp only [List.mem_map, List.mem_filter]
  constructor
  · rintro ⟨f, ⟨hf, hinc⟩, rfl⟩
    exact ⟨f, hf, hinc, rfl⟩
  · rintro ⟨f, hf, hinc, rfl⟩
    exact ⟨f, ⟨hf, hinc⟩, rfl⟩

/-- The inclusion rule in the words of the claim: combined, or video with
the canonical merge-target container, or audio-only. -/
def inclusionRule (f : RawFormat) : Prop :=
  (f.acodec ≠ "none" ∧ f.vcodec ≠ "none") ∨
  (f.vcodec ≠ "none" ∧ f.ext = "mp4") ∨
  (f.acodec ≠ "none" ∧ f.vcodec = "none")

instance (f : RawFormat) : Decidable (inclusionRule f) := by
  unfold inclusionRule
  infer_instance

theorem includeFormat_iff (f : RawFormat) :
    includeFormat f = true ↔ inclusionRule f := by
  simp only [includeFormat, hasAudioCodec, hasVideoCodec, inclusionRule,
    Bool.or_eq_true, Bool.and_eq_true, bne_iff_ne, Bool.not_eq_true',
    beq_iff_eq, bne_eq_false_iff_eq, ne_eq]
  tauto

theorem includeFormat_eq_decide (f : RawFormat) :
    includeFormat f = decide (inclusionRule f) := by
  cases hif : includeFormat f with
  | true => simp [(includeFormat_iff f).mp hif]
  | false =>
      have h : ¬ inclusionRule f := fun hr => by
        simp [(includeFormat_iff f).mpr hr] at hif
      simp [h]

/-- C5: a raw record contributes an entry to the Format Selector's output
if and only if it satisfies the inclusion rule (combined, or video in the
canonical "mp4" container, or audio with no video), and every output entry
arises from a rule-satisfying record. -/
theorem c5_formatSelector_inclusion (fs : List RawFormat) :
    List.Perm (formatSelector fs)
      ((fs.filter fun f => decide (inclusionRule f)).map toFormatOption) ∧
    ∀ o ∈ formatSelector fs,
      ∃ f, f ∈ fs ∧ inclusionRule f ∧ o = toFormatOption f := by
  constructor
  · have hfe : (fs.filter fun f => decide (inclusionRule f))
        = fs.filter includeFormat := by
      apply List.filter_congr
      intro x _
      exact (includeFormat_eq_decide x).symm
    rw [hfe]
    exact formatSelector_perm fs
  · intro o ho
    obtain ⟨f, hf, hinc, rfl⟩ := (mem_formatSelector fs o).mp ho
    exact ⟨f, hf, (includeFormat_iff f).mp hinc, rfl⟩

/-- A combined (audio and video) 720p mp4 record, used as concrete input. -/
def fComb : RawFormat :=
  { format_id := "22", ext := "mp4", acodec := "mp4a.40.2", vcodec := "avc1"
    height := some 720, fps := some 30, tbr := some 1000, filesize := none }

/-- An audio-only record without a tbr value, used as concrete input. -/
def fNoTbr : RawFormat :=
  { format_id := "139", ext := "m4a", acodec := "mp4a.40.5", vcodec := "none"
    height := none, fps := none, tbr := none, filesize := some 100 }

theorem c5_formatSelector_inclusion_witness :
    (List.Perm (formatSelector [fComb])
      (([fComb].filter fun f => decide (inclusionRule f)).map toFormatOption)) ∧
    (∃ f, f ∈ [fComb] ∧ inclusionRule f
       ∧ toFormatOption fComb = toFormatOption f) := by
  refine ⟨(c5_formatSelector_inclusion [fComb]).1,
    (c5_formatSelector_inclusion [fComb]).2 (toFormatOption fComb) ?_⟩
  simp [formatSelector, sortFormats, selectFormats, List.mergeSort,
    includeFormat, hasAudioCodec, hasVideoCodec, fComb]

/-- C6: the Format Selector's output is sorted non-increasing by `tbr`
(absent `tbr` treated as bottom), entries without a `tbr` all come after
entries with one, and for every fixed `tbr` value the entries keep their
relative order from the filtered input (stability). -/
theorem c6_formatSelector_sort (fs : List RawFormat) :
    ((formatSelector fs).Pairwise (fun a b => tbrKey b ≤ tbrKey a)) ∧
    ((formatSelector fs).Pairwise (fun a b => a.tbr = none → b.tbr = none)) ∧
    (∀ q : Option ℚ, (formatSelector fs).filter (fun o => o.tbr == q)
        = (selectFormats fs).filter (fun o => o.tbr == q)) :=
  ⟨formatSelector_sorted fs, formatSelector_none_le fs,
    formatSelector_filter_stable fs⟩

theorem c6_formatSelector_sort_witness :
    (((formatSelector [fNoTbr, fComb]).Pairwise
        (fun a b => tbrKey b ≤ tbrKey a)) ∧
    ((formatSelector [fNoTbr, fComb]).Pairwise
        (fun a b => a.tbr = none → b.tbr = none)) ∧
    (∀ q : Option ℚ,
      (formatSelector [fNoTbr, fComb]).filter (fun o => o.tbr == q)
        = (selectFormats [fNoTbr, fComb]).filter (fun o => o.tbr == q))) :=
  c6_formatSelector_sort [fNoTbr, fComb]

/-- C10: every entry of the Format Selector's output represents at least
one stream: `has_audio` or `has_video` is true. -/
theorem c10_formatOption_stream (fs : List RawFormat) (o : FormatOption)
    (ho : o ∈ formatSelector fs) : o.has_audio = true ∨ o.has_video = true := by
  obtain ⟨f, _, hinc, rfl⟩ := (mem_formatSelector fs o).mp ho
  by_cases ha : hasAudioCodec f = true
  · exact Or.inl (by simp [toFormatOption, ha])
  · have ha2 : hasAudioCodec f = false := by simpa using ha
    right
    have hv : hasVideoCodec f = true := by
      simp only [includeFormat, ha2, Bool.false_and, Bool.and_false,
        Bool.false_or, Bool.or_false, Bool.and_eq_true] at hinc
      exact hinc.1
    simp [toFormatOption, hv]

theorem c10_formatOption_stream_witness :
    (toFormatOption fNoTbr).has_audio = true
      ∨ (toFormatOption fNoTbr).has_video = true :=
  c10_formatOption_stream [fNoTbr] (toFormatOption fNoTbr)
    (by simp [formatSelector, sortFormats, selectFormats, List.mergeSort,
          includeFormat, hasAudioCodec, hasVideoCodec, fNoTbr])

/-- The stream-composition word of the combined / video-only / audio-only
classification used by claim C8. -/
def classificationWord (f : RawFormat) : String :=
  if hasAudioCodec f && hasVideoCodec f then "video+audio"
  else if hasVideoCodec f then "video-only"
  else "audio-only"

/-- The `format_note` composition in the literal words of claim C8:
a `"{height}p"` part whenever `height` is PRESENT, a `"{fps}fps"` part
whenever `fps` is present, then the classification word. -/
def claimNote (f : RawFormat) : String :=
  String.intercalate " "
    ((match f.height with | some h => [toString h ++ "p"] | none => []) ++
     (match f.fps with | some n => [toString n ++ "fps"] | none => []) ++
     [classificationWord f])

/-- The amended composition: the `"{height}p"` / `"{fps}fps"` parts appear
only when the value is present AND nonzero (Python truthiness). -/
def amendedNote (f : RawFormat) : String :=
  String.intercalate " "
    ((match f.height with
      | some h => if h != 0 then [toString h ++ "p"] else []
      | none => []) ++
     (match f.fps with
      | some n => if n != 0 then [toString n ++ "fps"] else []
      | none => []) ++
     [classificationWord f])

/-- An included (mp4 video-only) record whose `height` is present but `0`;
the code omits the `"0p"` part that the claim's wording requires. -/
def fmtHeightZero : RawFormat :=
  { format_id := "137", ext := "mp4", acodec := "none", vcodec := "avc1"
    height := some 0, fps := none, tbr := none, filesize := none }

theorem c8_note_counterexample :
    includeFormat fmtHeightZero = true ∧
    ((toFormatOption fmtHeightZero).format_note
        == claimNote fmtHeightZero) = false := by
  constructor
  · decide
  · decide

/-- C8 (amended): for every included raw record, `format_note` is the
space-joined composition of `"{height}p"` when height is present and
nonzero, `"{fps}fps"` when fps is present and nonzero, then exactly one
classification word. -/
theorem c8_format_note (f : RawFormat) (h : includeFormat f = true) :
    (toFormatOption f).format_note = amendedNote f := by
  have hparts : formatNoteParts f
      = ((match f.height with
          | some hh => if hh != 0 then [toString hh ++ "p"] else []
          | none => []) ++
         (match f.fps with
          | some n => if n != 0 then [toString n ++ "fps"] else []
          | none => []) ++
         [classificationWord f]) := by
    unfold formatNoteParts classificationWord
    cases ha : hasAudioCodec f <;> cases hv : hasVideoCodec f
    · simp [includeFormat, ha, hv] at h
    · have ha2 : (f.acodec == "none") = true := by
        have h0 : f.acodec = "none" := by simpa [hasAudioCodec] using ha
        simp [h0]
      simp [ha, hv, ha2]
    · have ha2 : (f.acodec == "none") = false := by
        simpa [hasAudioCodec] using ha
      have hv2 : (f.vcodec == "none") = true := by
        have h0 : f.vcodec = "none" := by simpa [hasVideoCodec] using hv
        simp [h0]
      simp [ha, hv, ha2, hv2]
    · simp [ha, hv]
  simp [toFormatOption, amendedNote, hparts]

theorem c8_format_note_witness :
    (toFormatOption fComb).format_note = amendedNote fComb :=
  c8_format_note fComb (by decide)

/-! ## Progress model, callback registry and hook (lines 28-54, 252-302) -/

/-- The `DownloadProgress` model (lines 28-40): a point-in-time snapshot. -/
structure DownloadProgress where
  status : String
  video_id : String
  title : String
  downloaded_bytes : Option Nat := none
  total_bytes : Option Nat := none
  speed : Option ℚ := none
  eta : Option Nat := none
  filename : Option String := none
  playlist_index : Option Nat := none
  error : Option String := none
  fragment_index : Option Nat := none
  fragment_count : Option Nat := none
  deriving Repr, DecidableEq

/-- A consumer progress callback; invoking it may itself raise. -/
abbrev Callback : Type := DownloadProgress → Except PyErr Unit

/-- The `self.progress_callbacks` dict (line 54), keyed by video id. -/
abbrev Registry : Type := List (String × Callback)

/-- Reading `self.progress_callbacks[video_id]`, also the `in` test. -/
def regLookup (reg : Registry) (k : String) : Option Callback :=
  (reg.find? (fun p => p.1 == k)).map (fun p => p.2)

/-- The assignment `self.progress_callbacks[video_id] = callback` (line 362). -/
def regInsert (reg : Registry) (k : String) (cb : Callback) : Registry :=
  if (reg.find? (fun p => p.1 == k)).isSome then
    reg.map (fun p => if p.1 == k then (k, cb) else p)
  else reg ++ [(k, cb)]

/-- The statement `del self.progress_callbacks[video_id]` (line 372), applied after the
membership test, so erasing an absent key is a no-op. -/
def regErase (reg : Registry) (k : String) : Registry :=
  reg.filter (fun p => p.1 != k)

/-- One event dict handed to a progress hook by the external tool;
`infoId`/`infoTitle` stand for `d.get('info_dict', {}).get(...)`. -/
structure HookEvent where
  status : Option String
  infoId : Option String
  infoTitle : Option String
  downloaded_bytes : Option Nat := none
  total_bytes : Option Nat := none
  total_bytes_estimate : Option Nat := none
  speed : Option ℚ := none
  eta : Option Nat := none
  filename : Option String := none
  fragment_index : Option Nat := none
  fragment_count : Option Nat := none

/-- The test `filename.endswith(('.webm', '.m4a', '.mkv', '.f'))` (line 291). -/
def intermediateName (s : String) : Bool :=
  strEndsWith s ".webm" || strEndsWith s ".m4a" ||
  strEndsWith s ".mkv" || strEndsWith s ".f"

/-- The expression `d.get('total_bytes') or d.get('total_bytes_estimate')` (line 268);
Python `or` also rejects a zero left operand. -/
def pyOrBytes (a b : Option Nat) : Option Nat :=
  match a with
  | some n => if n != 0 then some n else b
  | none => b

/-- The `try` block of `_progress_hook` (lines 259-300): the raising
status of the block together with the snapshots the callback was invoked
with.  `d['status']` on a dict without that key raises `KeyError`. -/
def hookTryBody (cb : Callback) (vid : String) (d : HookEvent) :
    Except PyErr Unit × List DownloadProgress :=
  match d.status with
  | none => (.error (.keyError "status"), [])
  | some s =>
    if s == "downloading" then
      let progress : DownloadProgress :=
        { status := "downloading", video_id := vid
          title := d.infoTitle.getD "Unknown"
          downloaded_bytes := d.downloaded_bytes
          total_bytes := pyOrBytes d.total_bytes d.total_bytes_estimate
          speed := d.speed, eta := d.eta, filename := d.filename
          fragment_index := d.fragment_index
          fragment_count := d.fragment_count }
      (cb progress, [progress])
    else if s == "finished" then
      let filename := d.filename.getD ""
      if intermediateName filename then (.ok (), [])
      else
        let progress : DownloadProgress :=
          { status := "finished", video_id := vid
            title := d.infoTitle.getD "Unknown"
            filename := some filename }
        (cb progress, [progress])
    else (.ok (), [])

/-- The method `_progress_hook` (lines 252-302).  Returns the snapshots forwarded to
the registered callback and the (unmodified) registry; the `except
Exception: pass` of lines 301-302 drops any error raised by the body. -/
def progressHook (reg : Registry) (d : HookEvent) :
    Except PyErr (List DownloadProgress × Registry) :=
  match d.infoId with
  | none => .ok ([], reg)
  | some vid =>
    if vid == "" then .ok ([], reg)
    else
      match regLookup reg vid with
      | none => .ok ([], reg)
      | some cb =>
          let body := hookTryBody cb vid d
          .ok (body.2, reg)

/-! ## download_video (lines 304-372) -/

/-- The message Python renders for an exception (`str(e)`). -/
def pyErrMsg : PyErr → String
  | .exception m => m
  | .keyError k => k
  | .valueError m => m
  | .validationError m => m

/-- The post-processor dicts of the two option branches. -/
inductive PostProcessor where
  | ffmpegExtractAudio (preferredcodec : String) (preferredquality : String)
  | ffmpegVideoConvertor (preferedformat : String)
  deriving Repr, DecidableEq

/-- The fields of `ydl_opts` the orchestration depends on (lines 306-349);
boolean and list options are carried verbatim. -/
structure YdlOpts where
  format : String
  merge_output_format : Option String
  outtmpl : String
  postprocessors : List PostProcessor
  keepvideo : Bool
  postprocessor_args : List String
  has_download_ranges : Bool
  force_keyframes_at_cuts : Bool
  deriving Repr, DecidableEq

/-- Building `ydl_opts` (lines 306-349).  `format_id if format_id else
...` uses Python truthiness, so an empty string also falls back to the
default selector. -/
def buildYdlOpts (format_id : Option String) (extract_audio : Bool)
    (start_time end_time : Option Int) : YdlOpts :=
  let base : YdlOpts :=
    if extract_audio then
      { format := "bestaudio/best"
        merge_output_format := none
        outtmpl := "%(title)s.%(ext)s"
        postprocessors := [.ffmpegExtractAudio "mp3" "192"]
        keepvideo := false
        postprocessor_args := []
        has_download_ranges := false
        force_keyframes_at_cuts := false }
    else
      { format :=
          match format_id with
          | some f =>
              if f != "" then f
              else "bestvideo[height<=1080][ext=mp4]+bestaudio[ext=m4a]/best[ext=mp4]/best"
          | none => "bestvideo[height<=1080][ext=mp4]+bestaudio[ext=m4a]/best[ext=mp4]/best"
        merge_output_format := some "mp4"
        outtmpl := "%(title)s.%(ext)s"
        postprocessors := [.ffmpegVideoConvertor "mp4"]
        keepvideo := true
        postprocessor_args := ["-c:v", "copy", "-c:a", "aac",
          "-strict", "experimental"]
        has_download_ranges := false
        force_keyframes_at_cuts := false }
  match start_time, end_time with
  | some _, some _ =>
      { base with has_download_ranges := true, force_keyframes_at_cuts := true }
  | _, _ => base

/-- What `ydl.extract_info(url, download=False)` resolves (line 355):
the id and title entries of the info dict. -/
structure InfoLite where
  id : Option String
  title : Option String

/-- The method `download_video` (lines 351-372), as a state transformer on the
callback registry.  `extract` is the outcome of the metadata resolution,
`dl` the outcome of `ydl.download([url])`; both are external effects.
The `finally` of lines 369-372 removes the registry entry of the resolved
id on every exit path. -/
def download_video (reg : Registry) (extract : Except PyErr InfoLite)
    (dl : Except PyErr Unit) (callback : Option Callback) :
    Except PyErr (Option String) × Registry :=
  match extract with
  | .error e =>
      (.error (.exception ("Error downloading video: " ++ pyErrMsg e)), reg)
  | .ok info =>
    match info.id with
    | none =>
        (.error (.exception
          "Error downloading video: Could not get video ID"), reg)
    | some vid =>
      if vid == "" then
        (.error (.exception
          "Error downloading video: Could not get video ID"), reg)
      else
        let reg1 : Registry :=
          match callback with
          | some cb => regInsert reg vid cb
          | none => reg
        match dl with
        | .ok _ => (.ok info.title, regErase reg1 vid)
        | .error e =>
            (.error (.exception
              ("Error downloading video: " ++ pyErrMsg e)), regErase reg1 vid)

/-- The item identifier resolved by lines 355-358 (a truthy `id`). -/
def resolvedId (extract : Except PyErr InfoLite) : Option String :=
  match extract with
  | .ok info =>
      match info.id with
      | some v => if v == "" then none else some v
      | none => none
  | .error _ => none

theorem regLookup_regErase (reg : Registry) (k : String) :
    regLookup (regErase reg k) k = none := by
  have h : (regErase reg k).find? (fun p => p.1 == k) = none := by
    apply List.find?_eq_none.mpr
    intro x hx
    have hx2 := (List.mem_filter.mp hx).2
    simpa using hx2
  simp [regLookup, h]

/-- C3: after `download_video` returns or raises, the registry holds no
entry for the resolved video identifier, on every exit path; and a stray
hook invocation for an identifier that is not (or no longer) registered
returns without raising, emits nothing and leaves the registry unchanged. -/
theorem c3_callback_cleanup :
    (∀ (reg : Registry) (extract : Except PyErr InfoLite)
        (dl : Except PyErr Unit) (callback : Option Callback) (vid : String),
      resolvedId extract = some vid →
      regLookup (download_video reg extract dl callback).2 vid = none) ∧
    (∀ (reg : Registry) (d : HookEvent) (vid : String),
      d.infoId = some vid → regLookup reg vid = none →
      progressHook reg d = .ok ([], reg)) := by
  constructor
  · intro reg extract dl callback vid hres
    match extract with
    | .error e => simp [resolvedId] at hres
    | .ok info =>
      match hid : info.id with
      | none => simp [resolvedId, hid] at hres
      | some v =>
        simp only [resolvedId, hid] at hres
        by_cases hv : (v == "") = true
        · simp [hv] at hres
        · rw [if_neg hv] at hres
          cases hres
          cases dl <;> simp [download_video, hid, hv, regLookup_regErase]
  · intro reg d vid hid hlook
    unfold progressHook
    rw [hid]
    by_cases hv : (vid == "") = true
    · simp [hv]
    · simp [hv, hlook]

/-- A trivial concrete callback used by the concrete scenarios. -/
def cbUnit : Callback := fun _ => .ok ()

theorem c3_callback_cleanup_witness :
    (regLookup
      (download_video [] (.ok { id := some "abc", title := some "T" })
        (.ok ()) (some cbUnit)).2 "abc" = none) ∧
    (progressHook [] { status := some "finished", infoId := some "zzz"
                       infoTitle := none } = .ok ([], [])) := by
  constructor
  · exact c3_callback_cleanup.1 [] (.ok { id := some "abc", title := some "T" })
      (.ok ()) (some cbUnit) "abc" (by simp [resolvedId])
  · exact c3_callback_cleanup.2 []
      { status := some "finished", infoId := some "zzz", infoTitle := none }
      "zzz" rfl (by simp [regLookup])

/-- C7: `_progress_hook` returns normally for every event dict, every
registry and every callback behaviour (including raising callbacks); a
fault inside the hook or the callback never propagates to the download. -/
theorem c7_hook_never_raises (reg : Registry) (d : HookEvent) :
    isOkE (progressHook reg d) = true := by
  unfold progressHook
  match d.infoId with
  | none => rfl
  | some vid =>
    by_cases hv : (vid == "") = true
    · simp [hv, isOkE]
    · simp only [hv, Bool.false_eq_true, if_false]
      match regLookup reg vid with
      | none => rfl
      | some cb => rfl

/-! ## Hook event sequences: finished-event filtering (claim C4) -/

/-- Driving `_progress_hook` over the events of one item's download,
collecting every snapshot forwarded to the consumer's callback. -/
def runHookEvents (reg : Registry) : List HookEvent → List DownloadProgress
  | [] => []
  | d :: ds =>
    match progressHook reg d with
    | .ok (emitted, reg2) => emitted ++ runHookEvents reg2 ds
    | .error _ => []

/-- Snapshots carrying `status = finished`. -/
def isFinishedP (p : DownloadProgress) : Bool := p.status == "finished"

/-- Hook events that are `finished` with a non-intermediate filename. -/
def finishedEventNonIntermediate (d : HookEvent) : Bool :=
  (d.status == some "finished") && !(intermediateName (d.filename.getD ""))

theorem hookTryBody_finished_shape (cb : Callback) (vid : String)
    (d : HookEvent) (p : DownloadProgress)
    (hp : p ∈ (hookTryBody cb vid d).2) (hf : isFinishedP p = true) :
    ∃ s, p.filename = some s ∧ intermediateName s = false := by
  unfold hookTryBody at hp
  match hs : d.status with
  | none => rw [hs] at hp; simp at hp
  | some s =>
    rw [hs] at hp
    by_cases h1 : (s == "downloading") = true
    · simp only [h1, if_true, List.mem_singleton] at hp
      rw [hp] at hf
      simp [isFinishedP] at hf
    · by_cases h2 : (s == "finished") = true
      · simp only [h1, h2, Bool.false_eq_true, if_false, if_true] at hp
        by_cases h3 : intermediateName (d.filename.getD "") = true
        · simp [h3] at hp
        · simp only [h3, Bool.false_eq_true, if_false,
            List.mem_singleton] at hp
          refine ⟨d.filename.getD "", ?_, ?_⟩
          · rw [hp]
          · simpa using h3
      · simp [h1, h2] at hp

theorem hookTryBody_finished_count (cb : Callback) (vid : String)
    (d : HookEvent) :
    ((hookTryBody cb vid d).2.filter isFinishedP).length
      ≤ (if finishedEventNonIntermediate d then 1 else 0) := by
  unfold hookTryBody
  match hs : d.status with
  | none => simp
  | some s =>
    by_cases h1 : (s == "downloading") = true
    · simp [h1, isFinishedP]
    · by_cases h2 : (s == "finished") = true
      · have hs2 : s = "finished" := by simpa using h2
        by_cases h3 : intermediateName (d.filename.getD "") = true
        · simp [h1, h2, h3]
        · have h3f : intermediateName (d.filename.getD "") = false := by
            simpa using h3
          have hev : finishedEventNonIntermediate d = true := by
            simp [finishedEventNonIntermediate, hs, hs2, h3f]
          simp [h1, h2, h3, hev, isFinishedP]
      · simp [h1, h2]

theorem progressHook_spec (reg : Registry) (d : HookEvent) :
    ∃ emitted, progressHook reg d = .ok (emitted, reg) ∧
      (∀ p ∈ emitted, isFinishedP p = true →
        ∃ s, p.filename = some s ∧ intermediateName s = false) ∧
      (emitted.filter isFinishedP).length
        ≤ (if finishedEventNonIntermediate d then 1 else 0) := by
  unfold progressHook
  match d.infoId with
  | none => exact ⟨[], rfl, by simp, by simp⟩
  | some vid =>
    by_cases hv : (vid == "") = true
    · exact ⟨[], by simp [hv], by simp, by simp⟩
    · simp only [hv, Bool.false_eq_true, if_false]
      match regLookup reg vid with
      | none => exact ⟨[], rfl, by simp, by simp⟩
      | some cb =>
          exact ⟨(hookTryBody cb vid d).2, rfl,
            fun p hp hf => hookTryBody_finished_shape cb vid d p hp hf,
            hookTryBody_finished_count cb vid d⟩

theorem runHookEvents_finished_shape (reg : Registry)
    (events : List HookEvent) (p : DownloadProgress)
    (hp : p ∈ runHookEvents reg events) (hf : isFinishedP p = true) :
    ∃ s, p.filename = some s ∧ intermediateName s = false := by
  induction events generalizing reg with
  | nil => simp [runHookEvents] at hp
  | cons d ds ih =>
    obtain ⟨emitted, heq, hshape, _⟩ := progressHook_spec reg d
    simp only [runHookEvents, heq] at hp
    rcases List.mem_append.mp hp with h | h
    · exact hshape p h hf
    · exact ih reg h

theorem runHookEvents_finished_count (reg : Registry)
    (events : List HookEvent) :
    ((runHookEvents reg events).filter isFinishedP).length
      ≤ (events.filter finishedEventNonIntermediate).length := by
  induction events generalizing reg with
  | nil => simp [runHookEvents]
  | cons d ds ih =>
    obtain ⟨emitted, heq, _, hcount⟩ := progressHook_spec reg d
    have h2 := ih reg
    simp only [runHookEvents, heq, List.filter_append, List.length_append,
      List.filter_cons]
    by_cases hd : finishedEventNonIntermediate d = true <;>
      simp only [hd, if_true, Bool.false_eq_true, if_false,
        List.length_cons] at hcount ⊢ <;> omega

/-- A registry holding the one item of the concrete hook scenarios. -/
def regOne : Registry := [("vid1", cbUnit)]

/-- A `downloading` hook event of the concrete scenarios. -/
def evDownloading (n : Nat) : HookEvent :=
  { status := some "downloading", infoId := some "vid1"
    infoTitle := some "T", downloaded_bytes := some n
    total_bytes := some 100 }

/-- A `finished` hook event with the given filename. -/
def evFinished (fn : String) : HookEvent :=
  { status := some "finished", infoId := some "vid1"
    infoTitle := some "T", filename := some fn }

/-- The event sequence of the claim's example. -/
def exampleEvents : List HookEvent :=
  [evDownloading 10, evDownloading 55, evFinished "intermediate.webm",
   evDownloading 90, evFinished "final.mp4"]

/-- C4 counterexample: two `finished` events for the same item, both with
non-intermediate (`.mp4`) filenames, are both forwarded, so the hook does
not by itself bound `finished` to at most once per item for every event
sequence. -/
theorem c4_finished_counterexample :
    ((runHookEvents regOne
        [evFinished "a.mp4", evFinished "b.mp4"]).filter
      isFinishedP).length = 2 := by
  rfl

/-- C4 (amended): a `finished` snapshot is forwarded only with a filename
that does not carry an intermediate suffix (`.webm`/`.m4a`/`.mkv`/`.f`);
the number of forwarded `finished` snapshots never exceeds the number of
hook events that are `finished` with a non-intermediate filename; and on
the claim's example sequence the consumer observes exactly one `finished`,
carrying `final.mp4`. -/
theorem c4_finished_filtering :
    (∀ (reg : Registry) (events : List HookEvent) (p : DownloadProgress),
      p ∈ runHookEvents reg events → isFinishedP p = true →
      ∃ s, p.filename = some s ∧ intermediateName s = false) ∧
    (∀ (reg : Registry) (events : List HookEvent),
      ((runHookEvents reg events).filter isFinishedP).length
        ≤ (events.filter finishedEventNonIntermediate).length) ∧
    ((runHookEvents regOne exampleEvents).filter isFinishedP).map
        (fun p => p.filename) = [some "final.mp4"] :=
  ⟨fun reg events p hp hf =>
      runHookEvents_finished_shape reg events p hp hf,
   fun reg events => runHookEvents_finished_count reg events,
   by rfl⟩

theorem c4_finished_filtering_witness :
    ∃ s, (({ status := "finished", video_id := "vid1", title := "T"
             filename := some "final.mp4" } : DownloadProgress).filename
        = some s) ∧ intermediateName s = false :=
  c4_finished_filtering.1 regOne exampleEvents
    { status := "finished", video_id := "vid1", title := "T"
      filename := some "final.mp4" }
    (by decide) rfl

/-! ## Playlist metadata fetch and batch download (lines 8-26, 125-250) -/

/-- The fields of one flat playlist entry read by the loop of lines
146-158.  Entries the source marks private/deleted resolve to `None` and
are modelled as `Option.none` around this record. -/
structure FlatEntry where
  id : String
  title : String
  duration : Int
  thumbnail : String
  webpage_url : String
  uploader : Option String
  deriving Repr, DecidableEq

/-- The `VideoInfo` model (lines 8-18). -/
structure VideoInfo where
  id : String
  title : String
  duration : Int
  thumbnail : String
  formats : List FormatOption
  webpage_url : String
  description : Option String := none
  view_count : Option Nat := none
  uploader : Option String := none
  playlist_index : Option Nat := none
  deriving Repr, DecidableEq

/-- The `PlaylistInfo` model (lines 20-26); `video_count : int` is declared with no
default, so pydantic treats it as required. -/
structure PlaylistInfo where
  id : String
  title : String
  uploader : Option String
  video_count : Int
  videos : List VideoInfo
  webpage_url : String

/-- The raw record the external tool returns for a playlist URL in flat
mode; `entries` is absent when the URL is not a playlist. -/
structure RawPlaylist where
  id : String
  title : String
  uploader : Option String
  description : Option String
  webpage_url : String
  entries : Option (List (Option FlatEntry))

/-- The `VideoInfo(...)` built for one surviving entry (lines 148-157):
empty `formats`, `playlist_index` taken from the enumeration counter. -/
def entryVideoInfo (idx : Nat) (e : FlatEntry) : VideoInfo :=
  { id := e.id, title := e.title, duration := e.duration
    thumbnail := e.thumbnail, formats := [], webpage_url := e.webpage_url
    uploader := e.uploader, playlist_index := some idx }

/-- The `for idx, entry in enumerate(info['entries'], 1)` loop of lines
146-158: `idx` counts every slot (also the skipped ones), `None` entries
are skipped. -/
def playlistVideosFrom : Nat → List (Option FlatEntry) → List VideoInfo
  | _, [] => []
  | idx, none :: rest => playlistVideosFrom (idx + 1) rest
  | idx, some e :: rest =>
      entryVideoInfo idx e :: playlistVideosFrom (idx + 1) rest

/-- The whole entry loop, starting the enumeration at 1. -/
def playlistVideos (es : List (Option FlatEntry)) : List VideoInfo :=
  playlistVideosFrom 1 es

/-- The declared `PlaylistInfo` fields without a default (required). -/
def playlistInfoRequired : List String :=
  ["id", "title", "video_count", "videos", "webpage_url"]

/-- The keyword arguments of the `PlaylistInfo(...)` call of lines
160-167; `video_count` is not among them. -/
def playlistCtorKwargs : List String :=
  ["id", "title", "uploader", "description", "webpage_url", "videos"]

/-- The method `get_playlist_info` (lines 125-172): no info raises, a record with no
entry collection raises, and the final `PlaylistInfo(...)` call is
validated by pydantic — a required field that is not supplied raises a
`ValidationError`, which the `except` of lines 170-172 re-raises. -/
def get_playlist_info (raw : Option RawPlaylist) :
    Except PyErr PlaylistInfo :=
  match raw with
  | none => .error (.exception "No playlist information found")
  | some info =>
    match info.entries with
    | none => .error (.exception "URL is not a playlist")
    | some es =>
      let _videos := playlistVideos es
      if h : (playlistInfoRequired.all
          (fun f => playlistCtorKwargs.contains f)) = true then
        absurd h (by decide)
      else
        .error (.validationError "video_count field required")

/-- The declared field names of `BatchDownloadProgress` (lines 42-48). -/
def batchProgressFields : List String :=
  ["status", "total_videos", "completed_videos", "current_video",
   "failed_videos", "playlist_title"]

/-- The declared `BatchDownloadProgress` fields without a default. -/
def batchProgressRequired : List String :=
  ["status", "total_videos", "completed_videos"]

/-- The keyword arguments of the `BatchDownloadProgress(...)` call of
lines 182-189; `status` is not among them. -/
def batchCtorKwargs : List String :=
  ["total_videos", "completed_videos", "current_video_title",
   "current_video_progress", "start_time", "estimated_time_remaining"]

/-- An assignment `batch_progress.<name> = value`: pydantic raises a `ValueError` when
`name` is not a declared field of the model. -/
def pySetattr (name : String) : Except PyErr Unit :=
  if batchProgressFields.contains name then .ok ()
  else .error (.valueError ("object has no field " ++ name))

/-- The state of one batch run the loop can actually touch. -/
structure BatchState where
  completed_videos : Nat
  failed_videos : List (String × String)
  downloaded_files : List String
  deriving Repr, DecidableEq

/-- The `try` block of one loop iteration (lines 195-239): assign the
(undeclared) `current_video_title` and `current_video_progress`
attributes, download, then update the counters and the output list.  The
first assignment raises already. -/
def batchItemBody (dl : String → Except PyErr String) (st : BatchState)
    (v : VideoInfo) : Except PyErr BatchState := do
  let _ ← pySetattr "current_video_title"
  let _ ← pySetattr "current_video_progress"
  let title ← dl v.webpage_url
  pure { completed_videos := st.completed_videos + 1
         failed_videos := st.failed_videos
         downloaded_files := st.downloaded_files ++ [title] }

/-- The `for` loop of lines 194-244: `except Exception: ... continue`
keeps the previous state on any failure; nothing is ever appended to
`failed_videos` (the handler only prints). -/
def batchLoop (videos : List VideoInfo)
    (dl : String → Except PyErr String) : BatchState :=
  videos.foldl
    (fun st v =>
      match batchItemBody dl st v with
      | .ok st2 => st2
      | .error _ => st)
    { completed_videos := 0, failed_videos := [], downloaded_files := [] }

/-- The method `batch_download_playlist` (lines 174-250): fetch the playlist info,
build the `BatchDownloadProgress` (whose constructor call omits the
required `status` field), run the loop, return the downloaded files; the
outer `except` of lines 248-250 re-raises. -/
def batch_download_playlist (raw : Option RawPlaylist)
    (dl : String → Except PyErr String) : Except PyErr (List String) :=
  match get_playlist_info raw with
  | .error e => .error e
  | .ok pl =>
      if (batchProgressRequired.all
          (fun f => batchCtorKwargs.contains f)) = true then
        .ok (batchLoop pl.videos dl).downloaded_files
      else
        .error (.validationError "status field required")

theorem get_playlist_info_never_ok (raw : Option RawPlaylist) :
    isOkE (get_playlist_info raw) = false := by
  match raw with
  | none => rfl
  | some info =>
    match h : info.entries with
    | none => simp [get_playlist_info, h, isOkE]
    | some es =>
        simp only [get_playlist_info, h]
        rw [dif_neg (by decide)]
        rfl

/-- A concrete complete flat entry. -/
def mkEntry (i : String) : FlatEntry :=
  { id := i, title := "title " ++ i, duration := 60, thumbnail := "th"
    webpage_url := "https://e/" ++ i, uploader := none }

/-- Seven playlist slots whose slots 2 and 5 are private/deleted. -/
def sevenSlots : List (Option FlatEntry) :=
  [some (mkEntry "a"), none, some (mkEntry "b"), some (mkEntry "c"),
   none, some (mkEntry "d"), some (mkEntry "e")]

/-- A concrete raw playlist record carrying the seven slots. -/
def sevenSlotPlaylist : RawPlaylist :=
  { id := "PL1", title := "list", uploader := none, description := none
    webpage_url := "https://pl", entries := some sevenSlots }

/-- C2: the entry loop does return the non-empty entries in order, each
with empty formats and `playlist_index` equal to the 1-based position in
the original ordering (skipped slots keep counting); but
`get_playlist_info` itself never returns — the `PlaylistInfo(...)` call
omits the required `video_count` field, so every fetch raises. -/
theorem c2_playlist_entries :
    ((playlistVideos sevenSlots).map (fun v => v.playlist_index)
        = [some 1, some 3, some 4, some 6, some 7]) ∧
    ((playlistVideos sevenSlots).map (fun v => v.formats)
        = [[], [], [], [], []]) ∧
    (get_playlist_info (some sevenSlotPlaylist)
        = .error (.validationError "video_count field required")) ∧
    (∀ raw : Option RawPlaylist, isOkE (get_playlist_info raw) = false) := by
  refine ⟨by rfl, by rfl, ?_, get_playlist_info_never_ok⟩
  simp only [get_playlist_info, sevenSlotPlaylist]
  rw [dif_neg (by decide)]

/-- The five hypothetical playlist videos of the claim's example. -/
def fiveVideos : List VideoInfo :=
  [entryVideoInfo 1 (mkEntry "1"), entryVideoInfo 2 (mkEntry "2"),
   entryVideoInfo 3 (mkEntry "3"), entryVideoInfo 4 (mkEntry "4"),
   entryVideoInfo 5 (mkEntry "5")]

/-- A download oracle raising exactly on the third video's URL. -/
def dlFailThird : String → Except PyErr String := fun u =>
  if u == "https://e/3" then .error (.exception "download failed")
  else .ok u

/-- C1: `batch_download_playlist` can never behave as claimed.  It never
returns at all (`get_playlist_info` always raises, so every call errors);
and even the download loop, run on a hypothetical five-entry playlist
whose third download raises, performs no download, records nothing in
`failed_videos` and leaves `completed_videos` at 0, because every
iteration raises at the assignment to the undeclared
`current_video_title` attribute and the handler just continues. -/
theorem c1_batch_download :
    (∀ (raw : Option RawPlaylist) (dl : String → Except PyErr String),
      isOkE (batch_download_playlist raw dl) = false) ∧
    (batchLoop fiveVideos dlFailThird
      = { completed_videos := 0, failed_videos := []
          downloaded_files := [] }) := by
  constructor
  · intro raw dl
    unfold batch_download_playlist
    match hres : get_playlist_info raw with
    | .error e => rfl
    | .ok pl =>
        have hok := get_playlist_info_never_ok raw
        rw [hres] at hok
        simp [isOkE] at hok
  · rfl

/-- C9: the options object handed to the external tool is mode-dependent:
audio mode forces best-audio-only selection, an mp3/192 extract-audio
post-processor and discards the intermediate container; video mode (with
no explicit format id) uses the 1080p-mp4-plus-m4a fallback chain, merges
into mp4 with an mp4 convertor post-processor and keeps the intermediate
pre-merge file. -/
theorem c9_ydl_opts (format_id : Option String) (st et : Option Int) :
    ((buildYdlOpts format_id true st et).format = "bestaudio/best" ∧
     (buildYdlOpts format_id true st et).postprocessors
        = [.ffmpegExtractAudio "mp3" "192"] ∧
     (buildYdlOpts format_id true st et).keepvideo = false) ∧
    ((buildYdlOpts none false st et).format
        = "bestvideo[height<=1080][ext=mp4]+bestaudio[ext=m4a]/best[ext=mp4]/best" ∧
     (buildYdlOpts none false st et).merge_output_format = some "mp4" ∧
     (buildYdlOpts none false st et).postprocessors
        = [.ffmpegVideoConvertor "mp4"] ∧
     (buildYdlOpts none false st et).keepvideo = true) := by
  cases st <;> cases et <;>
    exact ⟨⟨rfl, rfl, rfl⟩, rfl, rfl, rfl, rfl⟩
